import Mathlib

/-!
Verification of the mikrom VM lifecycle orchestrator and IP address
allocator, shallowly embedded from the Python sources.

IPv4 addresses are represented by their integer value (the code converts
between dotted strings and integers with `_ip_to_int` / `_int_to_ip`,
which is a bijection, so set membership and ordering transfer directly).
Timestamps are abstracted to a `Nat` supplied by the caller; database
tables are association lists in insertion order, and `find?` models
`scalar_one_or_none` / `.first()` under the uniqueness invariants the
schema enforces.
-/

namespace Mikrom

/-- One row of the `ip_pools` table (`mikrom/models/ip_pool.py`). -/
structure IpPool where
  id : Nat
  name : String
  cidr : String
  gateway : Nat
  startIp : Nat
  endIp : Nat
  isActive : Bool
deriving Repr, DecidableEq

/-- One row of the `ip_allocations` table (`mikrom/models/ip_allocation.py`).
`releasedAt = none` models a NULL `released_at` column. -/
structure IpAllocation where
  poolId : Nat
  vmId : String
  ipAddress : Nat
  isActive : Bool
  allocatedAt : Nat
  releasedAt : Option Nat
deriving Repr, DecidableEq

/-- The persistent state the IP pool service operates on. -/
structure PoolState where
  pools : List IpPool
  allocs : List IpAllocation
deriving Repr, DecidableEq

/-- Errors raised by `IPPoolService` (`ippool_service.py`). -/
inductive AllocError where
  | poolNotFound
  | noAvailableIPs
deriving Repr, DecidableEq

/-- `hosts()` of an IPv4 network of `size = 2 ^ (32 - prefixLen)` addresses
based at `network`, for prefixes up to /30: every address except the
network and broadcast addresses, in ascending order. -/
def hostsList (network size : Nat) : List Nat :=
  (List.range (size - 2)).map (fun i => network + 1 + i)

/-- `_calculate_available_ips` (`ippool_service.py` lines 52-86): list the
usable hosts, drop the gateway, and keep only the first and last of what
remains as the stored `(start_ip, end_ip)` bounds. -/
def calculateAvailableIps (network size gateway : Nat) :
    Except String (Nat × Nat) :=
  let hosts := hostsList network size
  if hosts = [] then
    .error "Network has no usable hosts"
  else
    let available := hosts.filter (fun h => h ≠ gateway)
    match available with
    | [] => .error "No available IPs after excluding gateway"
    | a :: rest => .ok (a, (a :: rest).getLast (by simp))

/-- The ascending scan `range(start_int, end_int + 1)` of `allocate_ip`. -/
def poolScan (startIp endIp : Nat) : List Nat :=
  List.range' startIp (endIp + 1 - startIp)

/-- The active allocation `get_allocation` would return for a VM:
first allocation row with `vm_id == vmId` and `is_active`. -/
def activeFor (allocs : List IpAllocation) (vmId : String) :
    Option IpAllocation :=
  allocs.find? (fun a => a.vmId == vmId && a.isActive)

/-- The `ip_address` column of all active allocations of a pool, the set
`allocated_ips` computed inside `allocate_ip`. -/
def activeIpsInPool (allocs : List IpAllocation) (poolId : Nat) : List Nat :=
  (allocs.filter (fun a => a.poolId == poolId && a.isActive)).map
    (fun a => a.ipAddress)

/-- The `for ip_int in range(start, end+1): if ip not in allocated` loop of
`allocate_ip`: first address of the scan not in `allocated`. -/
def findAvailableIp (startIp endIp : Nat) (allocated : List Nat) :
    Option Nat :=
  (poolScan startIp endIp).find? (fun ip => !(decide (ip ∈ allocated)))

/-- The pool lookup of `allocate_ip`: first pool row with the requested
name and `is_active` (the `SELECT ... FOR UPDATE` row). -/
def poolFind (pools : List IpPool) (poolName : String) : Option IpPool :=
  pools.find? (fun p => p.name == poolName && p.isActive)

/-- `IPPoolService.allocate_ip` (`ippool_service.py` lines 122-270).
Returns the allocated address together with the state after the
transaction; error outcomes model a raised exception, which leaves the
table unchanged (nothing was added before the raise). -/
def allocate_ip (s : PoolState) (vmId : String) (poolName : String)
    (now : Nat) : Except AllocError Nat × PoolState :=
  match activeFor s.allocs vmId with
  | some existing => (.ok existing.ipAddress, s)
  | none =>
    match poolFind s.pools poolName with
    | none => (.error .poolNotFound, s)
    | some pool =>
      match findAvailableIp pool.startIp pool.endIp
          (activeIpsInPool s.allocs pool.id) with
      | none => (.error .noAvailableIPs, s)
      | some ip =>
        (.ok ip,
         { s with allocs := s.allocs ++
             [{ poolId := pool.id, vmId := vmId, ipAddress := ip,
                isActive := true, allocatedAt := now, releasedAt := none }] })

/-- Flip the first active allocation of `vmId` to inactive and stamp
`released_at`, leaving every other row alone (the single-row UPDATE of
`release_ip`). -/
def markReleased (allocs : List IpAllocation) (vmId : String) (now : Nat) :
    List IpAllocation :=
  match allocs with
  | [] => []
  | a :: rest =>
    if a.vmId == vmId && a.isActive then
      { a with isActive := false, releasedAt := some now } :: rest
    else
      a :: markReleased rest vmId now

/-- `IPPoolService.release_ip` (`ippool_service.py` lines 272-324). -/
def release_ip (s : PoolState) (vmId : String) (now : Nat) :
    Bool × PoolState :=
  match activeFor s.allocs vmId with
  | none => (false, s)
  | some _ => (true, { s with allocs := markReleased s.allocs vmId now })

/-- Number of active allocation rows held by a VM. -/
def activeCountFor (allocs : List IpAllocation) (vmId : String) : Nat :=
  (allocs.filter (fun a => a.vmId == vmId && a.isActive)).length

/-- The string values of the `VMStatus` enum exactly as declared in
`mikrom/models/vm.py` lines 13-21: six members. -/
def vmStatusValues : List String :=
  ["pending", "provisioning", "running", "stopped", "error", "deleting"]

/-- Attribute lookup `VMStatus.<NAME>` on the enum class: `some value`
when the member is declared, `none` when the access would raise
`AttributeError`. -/
def vmStatusAttr (name : String) : Option String :=
  if name == "PENDING" then some "pending"
  else if name == "PROVISIONING" then some "provisioning"
  else if name == "RUNNING" then some "running"
  else if name == "STOPPED" then some "stopped"
  else if name == "ERROR" then some "error"
  else if name == "DELETING" then some "deleting"
  else none

/-- The enum member `VMService.stop_vm` assigns for its synchronous status
write (`vm_service.py` line 268: `vm.status = VMStatus.STOPPING`). -/
def stopVmSyncStatus : Option String := vmStatusAttr "STOPPING"

/-- The enum member `VMService.start_vm` assigns for its synchronous
status write (`vm_service.py` line 302: `vm.status = VMStatus.STARTING`). -/
def startVmSyncStatus : Option String := vmStatusAttr "STARTING"

/-- The enum member `VMService.restart_vm` assigns for its synchronous
status write (`vm_service.py` line 339: `vm.status = VMStatus.RESTARTING`). -/
def restartVmSyncStatus : Option String := vmStatusAttr "RESTARTING"

/-- One row of the `vms` table (`mikrom/models/vm.py`). Statuses are the
enum string values; `errorMessage`, `ipAddress`, `host`, `kernelPath`
are nullable columns. -/
structure VMRec where
  dbId : Nat
  vmId : String
  name : String
  status : String
  errorMessage : Option String
  ipAddress : Option Nat
  host : Option String
  kernelPath : Option String
  userId : Nat
deriving Repr, DecidableEq

/-- A user row, with the fields the VM service consults. -/
structure UserRec where
  id : Nat
  isSuperuser : Bool
deriving Repr, DecidableEq

/-- The whole persistent state the lifecycle code touches, plus the list
of `(vm_id, event_type, status payload)` events published so far. -/
structure SysState where
  vms : List VMRec
  pools : List IpPool
  allocs : List IpAllocation
  events : List (String × String × String)
deriving Repr, DecidableEq

/-- `session.get(VM, vm_db_id)`: lookup by primary key. -/
def findVmByDbId (vms : List VMRec) (dbId : Nat) : Option VMRec :=
  vms.find? (fun v => v.dbId == dbId)

/-- UPDATE of the row with primary key `dbId` (primary keys are unique,
so mapping over the table touches exactly that row). -/
def updateVm (vms : List VMRec) (dbId : Nat) (f : VMRec → VMRec) :
    List VMRec :=
  vms.map (fun v => if v.dbId == dbId then f v else v)

/-- Outcome of a Firecracker control-plane call; an error carries the
detail string `str(e)`. -/
inductive FcOutcome where
  | ok
  | err (detail : String)
deriving Repr, DecidableEq

/-- The `except Exception` handler of `_create_vm_task_async`
(`worker/tasks.py` lines 340-401): persist `status="error"` with the
failure detail and publish the error event (only if the VM row still
exists), then attempt to release the allocation — a failure of that
compensating step (`releaseRaises`) is only logged, the allocation stays
untouched — and finally re-raise the original exception. -/
def createFailurePath (s : SysState) (vmDbId : Nat) (vmId : String)
    (detail : String) (releaseRaises : Bool) (now : Nat) :
    Except String Unit × SysState :=
  let s1 :=
    match findVmByDbId s.vms vmDbId with
    | none => s
    | some _ =>
      { s with
        vms := updateVm s.vms vmDbId
          (fun v => { v with status := "error",
                             errorMessage := some detail }),
        events := s.events ++ [(vmId, "vm.status_change", "error")] }
  let s2 :=
    match releaseRaises with
    | true => s1
    | false =>
      match activeFor s1.allocs vmId with
      | none => s1
      | some _ => { s1 with allocs := markReleased s1.allocs vmId now }
  (.error detail, s2)

/-- `_create_vm_task_async` (`worker/tasks.py` lines 52-405): fetch the VM
row, run the inline allocation (pool lookup, idempotency check, ascending
scan, insert), persist `ip_address` and `status="provisioning"`, call
Firecracker `start_vm` (outcome supplied as `fc`), and on success persist
`status="running"`, `host`, `kernel_path` and clear `error_message`.
Every exception inside the `try` goes through `createFailurePath`. -/
def createVmTaskRun (s : SysState) (vmDbId : Nat)
    (kernelPath host : Option String) (fc : FcOutcome)
    (releaseRaises : Bool) (now : Nat) : Except String Unit × SysState :=
  match findVmByDbId s.vms vmDbId with
  | none => (.error "VM not found in database", s)
  | some vm0 =>
    let vmId := vm0.vmId
    match poolFind s.pools "default" with
    | none => createFailurePath s vmDbId vmId "IP pool default not found"
        releaseRaises now
    | some pool =>
      let ipAllocs :=
        match activeFor s.allocs vmId with
        | some existing => some (existing.ipAddress, s.allocs)
        | none =>
          match findAvailableIp pool.startIp pool.endIp
              (activeIpsInPool s.allocs pool.id) with
          | none => none
          | some ip =>
            some (ip, s.allocs ++
              [{ poolId := pool.id, vmId := vmId, ipAddress := ip,
                 isActive := true, allocatedAt := now, releasedAt := none }])
      match ipAllocs with
      | none => createFailurePath s vmDbId vmId
          "No available IPs in pool default" releaseRaises now
      | some (ip, allocs1) =>
        let s1 : SysState :=
          { s with
            allocs := allocs1,
            vms := updateVm s.vms vmDbId
              (fun v => { v with ipAddress := some ip,
                                 status := "provisioning" }),
            events := s.events ++
              [(vmId, "vm.status_change", "provisioning")] }
        match fc with
        | .err d => createFailurePath s1 vmDbId vmId d releaseRaises now
        | .ok =>
          (.ok (),
           { s1 with
             vms := updateVm s1.vms vmDbId
               (fun v => { v with status := "running", host := host,
                                  kernelPath := kernelPath,
                                  errorMessage := none }),
             events := s1.events ++
               [(vmId, "vm.status_change", "running")] })

/-- `_delete_vm_task_async` (`worker/tasks.py` lines 423-546): set
`status="deleting"`, best-effort Firecracker cleanup (failure only
logged), best-effort IP release (failure only logged, allocation left
untouched when the step raises), then delete the row; if the row-deletion
step raises (`rowDelete = .err e`) the handler persists `status="error"`
with a deletion-specific message and re-raises. -/
def deleteVmTaskRun (s : SysState) (vmDbId : Nat) (vmId : String)
    (cleanup : FcOutcome) (releaseRaises : Bool) (rowDelete : FcOutcome)
    (now : Nat) : Except String Unit × SysState :=
  let s1 : SysState :=
    { s with vms := updateVm s.vms vmDbId
                      (fun v => { v with status := "deleting" }) }
  let s2 :=
    match cleanup with
    | .ok => s1
    | .err _ => s1
  let s3 :=
    match releaseRaises with
    | true => s2
    | false =>
      match activeFor s2.allocs vmId with
      | none => s2
      | some _ => { s2 with allocs := markReleased s2.allocs vmId now }
  match rowDelete with
  | .ok =>
    (.ok (), { s3 with vms := s3.vms.filter (fun v => !(v.dbId == vmDbId)) })
  | .err e =>
    (.error e,
     { s3 with vms := updateVm s3.vms vmDbId
                        (fun v => { v with status := "error",
                                           errorMessage :=
                                             some ("Deletion failed: " ++ e) }) })

/-- The `except Exception` handler of `_start_vm_task_async`
(`worker/tasks.py` lines 720-736): persist `status="error"` and the
prefixed message if the row exists, then re-raise. -/
def startFailurePath (s : SysState) (vmDbId : Nat) (msg : String) :
    Except String Unit × SysState :=
  match findVmByDbId s.vms vmDbId with
  | none => (.error msg, s)
  | some _ =>
    (.error msg,
     { s with vms := updateVm s.vms vmDbId
                       (fun v => { v with status := "error",
                                          errorMessage := some msg }) })

/-- `_start_vm_task_async` (`worker/tasks.py` lines 638-740): fetch the
VM, fail fast when it has no IP, call Firecracker `start_vm` (outcome
`fc`), and on success persist `status="running"` and the host — note the
success write touches neither `error_message` nor `ip_address`. -/
def startVmTaskRun (s : SysState) (vmDbId : Nat) (host : Option String)
    (fc : FcOutcome) : Except String Unit × SysState :=
  match findVmByDbId s.vms vmDbId with
  | none => startFailurePath s vmDbId
      "Start failed: VM not found"
  | some vm =>
    match vm.ipAddress with
    | none => startFailurePath s vmDbId
        "Start failed: VM has no IP address allocated"
    | some _ =>
      match fc with
      | .err d => startFailurePath s vmDbId ("Start failed: " ++ d)
      | .ok =>
        (.ok (),
         { s with vms := updateVm s.vms vmDbId
                           (fun v => { v with status := "running",
                                              host := some (host.getD "firecracker-01") }) })

/-- Synchronous rejections at the API boundary. -/
inductive ApiError where
  | notFound
  | conflict
deriving Repr, DecidableEq

/-- Background workflows the intent handlers may enqueue. -/
inductive TaskKind where
  | createWf
  | startWf
  | stopWf
  | restartWf
  | deleteWf
deriving Repr, DecidableEq

/-- `VMService.get_vm_by_id` (`vm_service.py` lines 182-207): look the VM
up by its external id, then return `None` unless the caller owns it or is
a superuser. -/
def get_vm_by_id (vms : List VMRec) (vmId : String) (user : UserRec) :
    Option VMRec :=
  match vms.find? (fun v => v.vmId == vmId) with
  | none => none
  | some vm =>
    if vm.userId ≠ user.id ∧ ¬ user.isSuperuser then none else some vm

/-- `delete_vm` endpoint (`api/v1/endpoints/vms.py` lines 200-247):
404 when `get_vm_by_id` returns nothing, 409 when the VM is already
`deleting` (nothing mutated, nothing enqueued), otherwise
`VMService.delete_vm` persists `status="deleting"` and enqueues the
delete workflow. The `String` on success is the response status field. -/
def deleteVmEndpoint (s : SysState) (vmId : String) (user : UserRec) :
    Except ApiError String × SysState × List TaskKind :=
  match get_vm_by_id s.vms vmId user with
  | none => (.error .notFound, s, [])
  | some vm =>
    if vm.status == "deleting" then
      (.error .conflict, s, [])
    else
      (.ok "deleting",
       { s with vms := updateVm s.vms vm.dbId
                         (fun v => { v with status := "deleting" }) },
       [.deleteWf])

/-- Modelled from the spec: the `POST /vms/{id}/stop` endpoint is absent
from the sources (only `tests/test_api/test_vms.py` exercises it); §4.1
of the spec: precondition `status == RUNNING`, synchronous status
`STOPPING`, then the stop workflow is enqueued; a failed precondition is
a 409 `Conflict` with no side effects. -/
def stopVmEndpoint (s : SysState) (vmId : String) (user : UserRec) :
    Except ApiError String × SysState × List TaskKind :=
  match get_vm_by_id s.vms vmId user with
  | none => (.error .notFound, s, [])
  | some vm =>
    if vm.status == "running" then
      (.ok "stopping",
       { s with vms := updateVm s.vms vm.dbId
                         (fun v => { v with status := "stopping" }) },
       [.stopWf])
    else
      (.error .conflict, s, [])

/-- Modelled from the spec: the `POST /vms/{id}/start` endpoint is absent
from the sources (only the tests exercise it); §4.1 of the spec:
precondition `status ∈ {STOPPED, ERROR}`, synchronous status `STARTING`,
then the start workflow is enqueued; a failed precondition is a 409
`Conflict` with no side effects. -/
def startVmEndpoint (s : SysState) (vmId : String) (user : UserRec) :
    Except ApiError String × SysState × List TaskKind :=
  match get_vm_by_id s.vms vmId user with
  | none => (.error .notFound, s, [])
  | some vm =>
    if vm.status == "stopped" || vm.status == "error" then
      (.ok "starting",
       { s with vms := updateVm s.vms vm.dbId
                         (fun v => { v with status := "starting" }) },
       [.startWf])
    else
      (.error .conflict, s, [])

/-- Modelled from the spec: the `POST /vms/{id}/restart` endpoint is
absent from the sources (only the tests exercise it); §4.1 of the spec:
precondition `status == RUNNING`, synchronous status `RESTARTING`, then
the restart workflow is enqueued; a failed precondition is a 409
`Conflict` with no side effects. -/
def restartVmEndpoint (s : SysState) (vmId : String) (user : UserRec) :
    Except ApiError String × SysState × List TaskKind :=
  match get_vm_by_id s.vms vmId user with
  | none => (.error .notFound, s, [])
  | some vm =>
    if vm.status == "running" then
      (.ok "restarting",
       { s with vms := updateVm s.vms vm.dbId
                         (fun v => { v with status := "restarting" }) },
       [.restartWf])
    else
      (.error .conflict, s, [])

/-! ### Generic lemmas about the list operations used by the embedding -/

lemma find?_eq_head?_filter {α : Type} (l : List α) (p : α → Bool) :
    l.find? p = (l.filter p).head? := by
  induction l with
  | nil => rfl
  | cons x xs ih =>
    cases hx : p x
    · rw [List.find?_cons_of_neg _ (by simp [hx]),
        List.filter_cons_of_neg (by simp [hx]), ih]
    · rw [List.find?_cons_of_pos _ hx, List.filter_cons_of_pos hx,
        List.head?_cons]

lemma find?_pairwise_min {l : List Nat} {p : Nat → Bool} {a : Nat}
    (hl : l.Pairwise (· < ·)) (h : l.find? p = some a) :
    ∀ b ∈ l, b < a → p b = false := by
  induction l with
  | nil => simp at h
  | cons x xs ih =>
    intro b hb hba
    rcases List.pairwise_cons.1 hl with ⟨hx, hxs⟩
    cases hpx : p x
    · rw [List.find?_cons_of_neg _ (by simp [hpx])] at h
      rcases List.mem_cons.1 hb with rfl | hbxs
      · exact hpx
      · exact ih hxs h b hbxs hba
    · rw [List.find?_cons_of_pos _ hpx] at h
      have hax : a = x := by injection h with h1; omega
      rcases List.mem_cons.1 hb with rfl | hbxs
      · omega
      · have := hx b hbxs
        omega

lemma length_filter_bne {l : List Nat} {a : Nat}
    (hnd : l.Nodup) (ha : a ∈ l) :
    (l.filter (fun b => !(b == a))).length + 1 = l.length := by
  induction l with
  | nil => simp at ha
  | cons x xs ih =>
    rcases List.nodup_cons.1 hnd with ⟨hx, hxs⟩
    rcases List.mem_cons.1 ha with rfl | haxs
    · rw [List.filter_cons_of_neg (by simp)]
      rw [List.filter_eq_self.2 (fun b hb => by
        simp only [Bool.not_eq_true']
        simp only [beq_eq_false_iff_ne, ne_eq]
        intro hba
        exact hx (hba ▸ hb))]
      simp
    · have hxa : (x == a) = false := by
        simp only [beq_eq_false_iff_ne, ne_eq]
        intro hxa
        exact hx (hxa ▸ haxs)
      rw [List.filter_cons_of_pos (by simp [hxa])]
      simp only [List.length_cons]
      rw [← ih hxs haxs]

lemma findVmByDbId_updateVm (vms : List VMRec) (dbId : Nat)
    (f : VMRec → VMRec) (hf : ∀ v, (f v).dbId = v.dbId) :
    findVmByDbId (updateVm vms dbId f) dbId =
      (findVmByDbId vms dbId).map f := by
  unfold findVmByDbId updateVm
  induction vms with
  | nil => rfl
  | cons x xs ih =>
    simp only [List.map_cons]
    cases hx : (x.dbId == dbId)
    · rw [if_neg (by simp [hx]), List.find?_cons_of_neg _ (by simp [hx]),
        List.find?_cons_of_neg _ (by simp [hx]), ih]
    · rw [if_pos (by simp_all), List.find?_cons_of_pos _ (by simp [hf, hx]),
        List.find?_cons_of_pos _ (by simp [hx]), Option.map_some']

lemma markReleased_append {l l2 : List IpAllocation} {vmId : String}
    (now : Nat)
    (h : ∀ a ∈ l, (a.vmId == vmId && a.isActive) = false) :
    markReleased (l ++ l2) vmId now = l ++ markReleased l2 vmId now := by
  induction l with
  | nil => simp
  | cons x xs ih =>
    have hx := h x (List.mem_cons_self x xs)
    simp only [List.cons_append, markReleased, hx, Bool.false_eq_true,
      if_false, List.cons.injEq, true_and]
    exact ih (fun a ha => h a (List.mem_cons_of_mem x ha))

lemma activeFor_append_single (l : List IpAllocation) (r : IpAllocation)
    (vmId : String) :
    activeFor (l ++ [r]) vmId =
      (activeFor l vmId).or (if r.vmId == vmId && r.isActive
                             then some r else none) := by
  unfold activeFor
  rw [List.find?_append]
  cases hr : (r.vmId == vmId && r.isActive)
  · simp [List.find?_cons, hr]
  · simp [List.find?_cons, hr]

/-! ### Claim theorems -/

/-- C4: the defined `VMStatus` enum has six members, not nine — the
transitional statuses `stopping`, `starting`, `restarting` the spec lists
are not members, and the attribute accesses `VMStatus.STOPPING`,
`VMStatus.STARTING`, `VMStatus.RESTARTING` performed by the synchronous
writes of `VMService.stop_vm` / `start_vm` / `restart_vm` resolve to no
member (they raise `AttributeError` at runtime instead of persisting the
transitional status). -/
theorem vmstatus_enum_missing_transitional_members :
    stopVmSyncStatus = none ∧ startVmSyncStatus = none ∧
    restartVmSyncStatus = none ∧
    vmStatusValues =
      ["pending", "provisioning", "running", "stopped", "error",
       "deleting"] ∧
    vmStatusValues.length = 6 ∧
    "stopping" ∉ vmStatusValues ∧ "starting" ∉ vmStatusValues ∧
    "restarting" ∉ vmStatusValues := by
  refine ⟨rfl, rfl, rfl, rfl, rfl, ?_, ?_, ?_⟩ <;> decide

/-- A VM row stuck in `error` with a stale message, about to be started:
the concrete input on which `_start_vm_task_async` breaks the
`errorMessage ↔ ERROR` invariant. -/
def staleErrorVm : VMRec :=
  { dbId := 1, vmId := "srv-x", name := "x", status := "error",
    errorMessage := some "boom", ipAddress := some 2886729730,
    host := none, kernelPath := none, userId := 7 }

/-- System state holding only `staleErrorVm`. -/
def staleErrorState : SysState :=
  { vms := [staleErrorVm], pools := [], allocs := [], events := [] }

/-- C5: violated by the code. Starting a VM that sits in `status="error"`
(legal: the Start precondition admits `ERROR`) with a successful
control-plane call leaves `status="running"` while `error_message` still
holds the stale text, because the success write of
`_start_vm_task_async` never clears `error_message` — so `errorMessage ≠
null` while `status ≠ ERROR`, contradicting the claimed invariant. -/
theorem start_task_leaves_stale_error_message :
    startVmTaskRun staleErrorState 1 (some "h1") .ok =
      (.ok (),
       { staleErrorState with
         vms := [{ staleErrorVm with status := "running",
                                     host := some "h1" }] }) ∧
    ({ staleErrorVm with status := "running",
                         host := some "h1" } : VMRec).status = "running" ∧
    ({ staleErrorVm with status := "running",
                         host := some "h1" } : VMRec).errorMessage =
      some "boom" ∧
    some "boom" ≠ (none : Option String) := by
  refine ⟨rfl, rfl, rfl, by decide⟩

/-- C10: ownership isolation of `VMService.get_vm_by_id`: a non-superuser
querying a VM owned by someone else gets `none`, exactly the result for a
VM that does not exist (so the two cases are indistinguishable and the
depending endpoints answer 404 either way), while a superuser is returned
any existing VM. -/
theorem get_vm_by_id_ownership_isolation (vms : List VMRec)
    (vmId : String) (user : UserRec) :
    (user.isSuperuser = false →
      ∀ vm, vms.find? (fun v => v.vmId == vmId) = some vm →
        vm.userId ≠ user.id → get_vm_by_id vms vmId user = none) ∧
    (vms.find? (fun v => v.vmId == vmId) = none →
      get_vm_by_id vms vmId user = none) ∧
    (user.isSuperuser = true →
      ∀ vm, vms.find? (fun v => v.vmId == vmId) = some vm →
        get_vm_by_id vms vmId user = some vm) ∧
    (∀ s : SysState, s.vms = vms → get_vm_by_id vms vmId user = none →
      deleteVmEndpoint s vmId user = (.error .notFound, s, [])) := by
  refine ⟨?_, ?_, ?_, ?_⟩
  · intro hsu vm hvm hown
    unfold get_vm_by_id
    rw [hvm]
    simp [hown, hsu]
  · intro hnone
    unfold get_vm_by_id
    rw [hnone]
  · intro hsu vm hvm
    unfold get_vm_by_id
    rw [hvm]
    simp [hsu]
  · intro s hs hnone
    unfold deleteVmEndpoint
    rw [hs, hnone]

/-- Closed instance for C10: a VM owned by user 1; user 2 (not a
superuser) gets `none` — the same answer as for the missing id
`srv-none` — and the superuser user 3 gets the VM. -/
theorem get_vm_by_id_ownership_isolation_witness :
    get_vm_by_id
        [{ dbId := 1, vmId := "srv-a", name := "a", status := "running",
           errorMessage := none, ipAddress := none, host := none,
           kernelPath := none, userId := 1 }] "srv-a"
        { id := 2, isSuperuser := false } = none ∧
    get_vm_by_id
        [{ dbId := 1, vmId := "srv-a", name := "a", status := "running",
           errorMessage := none, ipAddress := none, host := none,
           kernelPath := none, userId := 1 }] "srv-none"
        { id := 2, isSuperuser := false } = none ∧
    get_vm_by_id
        [{ dbId := 1, vmId := "srv-a", name := "a", status := "running",
           errorMessage := none, ipAddress := none, host := none,
           kernelPath := none, userId := 1 }] "srv-a"
        { id := 3, isSuperuser := true } =
      some { dbId := 1, vmId := "srv-a", name := "a", status := "running",
             errorMessage := none, ipAddress := none, host := none,
             kernelPath := none, userId := 1 } := by
  refine ⟨?_, ?_, ?_⟩
  · exact (get_vm_by_id_ownership_isolation _ "srv-a"
      { id := 2, isSuperuser := false }).1 rfl
      { dbId := 1, vmId := "srv-a", name := "a", status := "running",
        errorMessage := none, ipAddress := none, host := none,
        kernelPath := none, userId := 1 } (by decide) (by decide)
  · exact (get_vm_by_id_ownership_isolation _ "srv-none"
      { id := 2, isSuperuser := false }).2.1 (by decide)
  · exact (get_vm_by_id_ownership_isolation _ "srv-a"
      { id := 3, isSuperuser := true }).2.2.1 rfl
      { dbId := 1, vmId := "srv-a", name := "a", status := "running",
        errorMessage := none, ipAddress := none, host := none,
        kernelPath := none, userId := 1 } (by decide)

/-- C3: for each lifecycle intent whose precondition on the current
status fails — Start with a status outside `{stopped, error}`, Stop or
Restart with a status other than `running`, Delete with status
`deleting` — the endpoint answers a synchronous 409 conflict, leaves the
state untouched, and enqueues no workflow. -/
theorem intent_precondition_conflict (s : SysState) (vmId : String)
    (user : UserRec) (vm : VMRec)
    (h : get_vm_by_id s.vms vmId user = some vm) :
    (vm.status ≠ "stopped" → vm.status ≠ "error" →
      startVmEndpoint s vmId user = (.error .conflict, s, [])) ∧
    (vm.status ≠ "running" →
      stopVmEndpoint s vmId user = (.error .conflict, s, [])) ∧
    (vm.status ≠ "running" →
      restartVmEndpoint s vmId user = (.error .conflict, s, [])) ∧
    (vm.status = "deleting" →
      deleteVmEndpoint s vmId user = (.error .conflict, s, [])) := by
  refine ⟨?_, ?_, ?_, ?_⟩
  · intro h1 h2
    unfold startVmEndpoint
    rw [h]
    simp [h1, h2]
  · intro h1
    unfold stopVmEndpoint
    rw [h]
    simp [h1]
  · intro h1
    unfold restartVmEndpoint
    rw [h]
    simp [h1]
  · intro h1
    unfold deleteVmEndpoint
    rw [h]
    simp [h1]

/-- Closed instance for C3: a VM already in `deleting` status fails all
four preconditions, and each endpoint answers conflict with no state
change and no enqueued workflow. -/
theorem intent_precondition_conflict_witness :
    startVmEndpoint
        { vms := [{ dbId := 1, vmId := "srv-d", name := "d",
                    status := "deleting", errorMessage := none,
                    ipAddress := none, host := none, kernelPath := none,
                    userId := 1 }],
          pools := [], allocs := [], events := [] } "srv-d"
        { id := 1, isSuperuser := false } =
      (.error .conflict,
       { vms := [{ dbId := 1, vmId := "srv-d", name := "d",
                   status := "deleting", errorMessage := none,
                   ipAddress := none, host := none, kernelPath := none,
                   userId := 1 }],
         pools := [], allocs := [], events := [] }, []) ∧
    deleteVmEndpoint
        { vms := [{ dbId := 1, vmId := "srv-d", name := "d",
                    status := "deleting", errorMessage := none,
                    ipAddress := none, host := none, kernelPath := none,
                    userId := 1 }],
          pools := [], allocs := [], events := [] } "srv-d"
        { id := 1, isSuperuser := false } =
      (.error .conflict,
       { vms := [{ dbId := 1, vmId := "srv-d", name := "d",
                   status := "deleting", errorMessage := none,
                   ipAddress := none, host := none, kernelPath := none,
                   userId := 1 }],
         pools := [], allocs := [], events := [] }, []) := by
  have h := intent_precondition_conflict
    { vms := [{ dbId := 1, vmId := "srv-d", name := "d",
                status := "deleting", errorMessage := none,
                ipAddress := none, host := none, kernelPath := none,
                userId := 1 }],
      pools := [], allocs := [], events := [] } "srv-d"
    { id := 1, isSuperuser := false }
    { dbId := 1, vmId := "srv-d", name := "d", status := "deleting",
      errorMessage := none, ipAddress := none, host := none,
      kernelPath := none, userId := 1 } (by decide)
  exact ⟨h.1 (by decide) (by decide), h.2.2.2 rfl⟩

/-- C1: `allocate_ip` is idempotent. Under the at-most-one-active-row
invariant, if a call returns address `ip`, a second call for the same VM
(any later time) returns the same `ip` and the identical state — no
second row — and exactly one active allocation row for that VM exists
afterward; the first call added at most one row. -/
theorem allocate_ip_idempotent (s : PoolState) (vmId poolName : String)
    (now now2 : Nat) (ip : Nat) (s1 : PoolState)
    (hinv : activeCountFor s.allocs vmId ≤ 1)
    (h : allocate_ip s vmId poolName now = (.ok ip, s1)) :
    allocate_ip s1 vmId poolName now2 = (.ok ip, s1) ∧
    activeCountFor s1.allocs vmId = 1 ∧
    s1.allocs.length ≤ s.allocs.length + 1 := by
  unfold allocate_ip at h
  cases hex : activeFor s.allocs vmId with
  | some a =>
    rw [hex] at h
    simp only [Prod.mk.injEq, Except.ok.injEq] at h
    obtain ⟨h1, h2⟩ := h
    subst h1
    subst h2
    have hexf : List.find? (fun x => x.vmId == vmId && x.isActive)
        s.allocs = some a := hex
    have hpa : (a.vmId == vmId && a.isActive) = true := by
      have := List.find?_some hexf
      simpa using this
    have hmem : a ∈ s.allocs.filter (fun x => x.vmId == vmId && x.isActive) :=
      List.mem_filter.2 ⟨List.mem_of_find?_eq_some hexf, hpa⟩
    have hpos : 0 < activeCountFor s.allocs vmId := by
      unfold activeCountFor
      exact List.length_pos.2 (List.ne_nil_of_mem hmem)
    refine ⟨?_, by omega, by omega⟩
    unfold allocate_ip
    rw [hex]
  | none =>
    rw [hex] at h
    simp only [] at h
    cases hp : poolFind s.pools poolName with
    | none =>
      rw [hp] at h
      simp at h
    | some pool =>
      rw [hp] at h
      simp only [] at h
      cases hfa : findAvailableIp pool.startIp pool.endIp
          (activeIpsInPool s.allocs pool.id) with
      | none =>
        rw [hfa] at h
        simp at h
      | some ip0 =>
        rw [hfa] at h
        simp only [Prod.mk.injEq, Except.ok.injEq] at h
        obtain ⟨h1, h2⟩ := h
        subst h1
        subst h2
        have hexf : List.find? (fun x => x.vmId == vmId && x.isActive)
            s.allocs = none := hex
        have hnew : activeFor (s.allocs ++
            [{ poolId := pool.id, vmId := vmId, ipAddress := ip0,
               isActive := true, allocatedAt := now,
               releasedAt := none }]) vmId =
            some { poolId := pool.id, vmId := vmId, ipAddress := ip0,
                   isActive := true, allocatedAt := now,
                   releasedAt := none } := by
          rw [activeFor_append_single]
          unfold activeFor
          rw [hexf]
          simp
        have hall : ∀ a ∈ s.allocs,
            ¬(a.vmId == vmId && a.isActive) = true :=
          List.find?_eq_none.1 hexf
        refine ⟨?_, ?_, by simp⟩
        · unfold allocate_ip
          rw [hnew]
        · unfold activeCountFor
          rw [List.filter_append,
            List.filter_eq_nil_iff.2 hall]
          simp

/-- Closed instance for C1: an empty three-address pool; allocating
twice for `vm-1` yields address 10 both times, the same single-row state,
and one active row. -/
theorem allocate_ip_idempotent_witness :
    allocate_ip
        { pools := [{ id := 1, name := "default", cidr := "10.0.0.0/29",
                      gateway := 9, startIp := 10, endIp := 12,
                      isActive := true }],
          allocs := [{ poolId := 1, vmId := "vm-1", ipAddress := 10,
                       isActive := true, allocatedAt := 0,
                       releasedAt := none }] } "vm-1" "default" 1 =
      (.ok 10,
       { pools := [{ id := 1, name := "default", cidr := "10.0.0.0/29",
                     gateway := 9, startIp := 10, endIp := 12,
                     isActive := true }],
         allocs := [{ poolId := 1, vmId := "vm-1", ipAddress := 10,
                      isActive := true, allocatedAt := 0,
                      releasedAt := none }] }) ∧
    activeCountFor [{ poolId := 1, vmId := "vm-1", ipAddress := 10,
                      isActive := true, allocatedAt := 0,
                      releasedAt := none }] "vm-1" = 1 := by
  have h := allocate_ip_idempotent
    { pools := [{ id := 1, name := "default", cidr := "10.0.0.0/29",
                  gateway := 9, startIp := 10, endIp := 12,
                  isActive := true }],
      allocs := [] } "vm-1" "default" 0 1 10
    { pools := [{ id := 1, name := "default", cidr := "10.0.0.0/29",
                  gateway := 9, startIp := 10, endIp := 12,
                  isActive := true }],
      allocs := [{ poolId := 1, vmId := "vm-1", ipAddress := 10,
                   isActive := true, allocatedAt := 0,
                   releasedAt := none }] }
    (by decide) rfl
  exact ⟨h.1, h.2.1⟩

/-- C2: when the control-plane Start call fails with detail `d` during
the create workflow (VM row present, pool present, fresh VM, an address
available), the task re-raises `d`, the VM row ends with `status="error"`
and `errorMessage = d`, and the address allocated in step 1 is released —
flipped inactive with `releasedAt` stamped; if the compensating release
itself fails (`releaseRaises = true`) the allocation is left as it was
but the task still re-raises the original `d`, never the release
failure. -/
theorem create_task_start_failure_compensation
    (s : SysState) (vmDbId : Nat) (kernelPath host : Option String)
    (d : String) (releaseRaises : Bool) (now : Nat) (vm0 : VMRec)
    (pool : IpPool) (ip : Nat)
    (hvm : findVmByDbId s.vms vmDbId = some vm0)
    (hpool : poolFind s.pools "default" = some pool)
    (hfresh : activeFor s.allocs vm0.vmId = none)
    (hip : findAvailableIp pool.startIp pool.endIp
        (activeIpsInPool s.allocs pool.id) = some ip) :
    ∃ s2, createVmTaskRun s vmDbId kernelPath host (.err d) releaseRaises
        now = (.error d, s2) ∧
      findVmByDbId s2.vms vmDbId =
        some { vm0 with ipAddress := some ip, status := "error",
                        errorMessage := some d } ∧
      (releaseRaises = false →
        s2.allocs = s.allocs ++
          [{ poolId := pool.id, vmId := vm0.vmId, ipAddress := ip,
             isActive := false, allocatedAt := now,
             releasedAt := some now }]) ∧
      (releaseRaises = true →
        s2.allocs = s.allocs ++
          [{ poolId := pool.id, vmId := vm0.vmId, ipAddress := ip,
             isActive := true, allocatedAt := now,
             releasedAt := none }]) := by
  have hexf : List.find? (fun x => x.vmId == vm0.vmId && x.isActive)
      s.allocs = none := hfresh
  have hall : ∀ a ∈ s.allocs,
      ¬(a.vmId == vm0.vmId && a.isActive) = true :=
    List.find?_eq_none.1 hexf
  have hact : activeFor (s.allocs ++
      [{ poolId := pool.id, vmId := vm0.vmId, ipAddress := ip,
         isActive := true, allocatedAt := now, releasedAt := none }])
      vm0.vmId =
      some { poolId := pool.id, vmId := vm0.vmId, ipAddress := ip,
             isActive := true, allocatedAt := now,
             releasedAt := none } := by
    rw [activeFor_append_single]
    unfold activeFor
    rw [hexf]
    simp
  have hrel : markReleased (s.allocs ++
      [{ poolId := pool.id, vmId := vm0.vmId, ipAddress := ip,
         isActive := true, allocatedAt := now, releasedAt := none }])
      vm0.vmId now = s.allocs ++
      [{ poolId := pool.id, vmId := vm0.vmId, ipAddress := ip,
         isActive := false, allocatedAt := now,
         releasedAt := some now }] := by
    rw [markReleased_append now (fun a ha => by
      simp only [Bool.not_eq_true] at hall
      exact hall a ha)]
    simp [markReleased]
  have hvm1 : findVmByDbId
      (updateVm s.vms vmDbId
        (fun v => { v with ipAddress := some ip,
                           status := "provisioning" })) vmDbId =
      some { vm0 with ipAddress := some ip,
                       status := "provisioning" } := by
    rw [findVmByDbId_updateVm s.vms vmDbId
      (fun v => { v with ipAddress := some ip,
                         status := "provisioning" }) (fun v => rfl), hvm]
    rfl
  have hvm2 : findVmByDbId
      (updateVm (updateVm s.vms vmDbId
        (fun v => { v with ipAddress := some ip,
                           status := "provisioning" })) vmDbId
        (fun v => { v with status := "error",
                           errorMessage := some d })) vmDbId =
      some { vm0 with ipAddress := some ip, status := "error",
                      errorMessage := some d } := by
    rw [findVmByDbId_updateVm
      (updateVm s.vms vmDbId
        (fun v => { v with ipAddress := some ip,
                           status := "provisioning" })) vmDbId
      (fun v => { v with status := "error",
                         errorMessage := some d }) (fun v => rfl), hvm1]
    rfl
  unfold createVmTaskRun
  rw [hvm]
  simp only []
  rw [hpool]
  simp only []
  rw [hfresh]
  simp only []
  rw [hip]
  simp only []
  unfold createFailurePath
  rw [hvm1]
  simp only []
  cases releaseRaises with
  | false =>
    simp only []
    rw [hact]
    simp only []
    rw [hrel]
    refine ⟨_, rfl, hvm2, fun _ => rfl, fun hcon => absurd hcon (by decide)⟩
  | true =>
    simp only []
    refine ⟨_, rfl, hvm2, fun hcon => absurd hcon (by decide), fun _ => rfl⟩

/-- Closed instance for C2: one pending VM, one three-address pool, no
allocations; Firecracker fails with detail `boom`; the release step
succeeds: the task re-raises `boom`, the row is `error`/`boom`, and the
address 10 allocated in step 1 ends released with `releasedAt` set. -/
theorem create_task_start_failure_compensation_witness :
    ∃ s2, createVmTaskRun
        { vms := [{ dbId := 1, vmId := "srv-c", name := "c",
                    status := "pending", errorMessage := none,
                    ipAddress := none, host := none, kernelPath := none,
                    userId := 1 }],
          pools := [{ id := 1, name := "default",
                      cidr := "10.0.0.0/29", gateway := 9,
                      startIp := 10, endIp := 12, isActive := true }],
          allocs := [], events := [] } 1 none (some "h1") (.err "boom")
        false 5 = (.error "boom", s2) ∧
      findVmByDbId s2.vms 1 =
        some { dbId := 1, vmId := "srv-c", name := "c",
               status := "error", errorMessage := some "boom",
               ipAddress := some 10, host := none, kernelPath := none,
               userId := 1 } ∧
      s2.allocs = [{ poolId := 1, vmId := "srv-c", ipAddress := 10,
                     isActive := false, allocatedAt := 5,
                     releasedAt := some 5 }] := by
  obtain ⟨s2, h1, h2, h3, _⟩ := create_task_start_failure_compensation
    { vms := [{ dbId := 1, vmId := "srv-c", name := "c",
                status := "pending", errorMessage := none,
                ipAddress := none, host := none, kernelPath := none,
                userId := 1 }],
      pools := [{ id := 1, name := "default", cidr := "10.0.0.0/29",
                  gateway := 9, startIp := 10, endIp := 12,
                  isActive := true }],
      allocs := [], events := [] } 1 none (some "h1") "boom" false 5
    { dbId := 1, vmId := "srv-c", name := "c", status := "pending",
      errorMessage := none, ipAddress := none, host := none,
      kernelPath := none, userId := 1 }
    { id := 1, name := "default", cidr := "10.0.0.0/29", gateway := 9,
      startIp := 10, endIp := 12, isActive := true } 10
    rfl rfl rfl (by decide)
  exact ⟨s2, h1, h2, by simpa using h3 rfl⟩

lemma findVmByDbId_filter_out (l : List VMRec) (dbId : Nat) :
    findVmByDbId (l.filter (fun v => !(v.dbId == dbId))) dbId = none := by
  unfold findVmByDbId
  rw [List.find?_eq_none]
  intro v hv
  have hp := (List.mem_filter.1 hv).2
  simp only [Bool.not_eq_true'] at hp
  simp [hp]

/-- C9: in the delete workflow, neither a control-plane cleanup failure
nor an address-release failure prevents the row deletion — for every
cleanup outcome and release outcome, a successful row-deletion step ends
with the task succeeding and the VM row gone; only a failing row-deletion
step is fatal: the task re-raises it and the row ends with
`status="error"` and the deletion-specific message. -/
theorem delete_task_best_effort (s : SysState) (vmDbId : Nat)
    (vmId : String) (cleanup : FcOutcome) (releaseRaises : Bool)
    (now : Nat) :
    ((deleteVmTaskRun s vmDbId vmId cleanup releaseRaises .ok now).1 =
        .ok () ∧
     findVmByDbId
        (deleteVmTaskRun s vmDbId vmId cleanup releaseRaises
          .ok now).2.vms vmDbId = none) ∧
    (∀ e vm0, findVmByDbId s.vms vmDbId = some vm0 →
      (deleteVmTaskRun s vmDbId vmId cleanup releaseRaises
          (.err e) now).1 = .error e ∧
      findVmByDbId
        (deleteVmTaskRun s vmDbId vmId cleanup releaseRaises
          (.err e) now).2.vms vmDbId =
        some { vm0 with status := "error",
                        errorMessage :=
                          some ("Deletion failed: " ++ e) }) := by
  constructor
  · unfold deleteVmTaskRun
    cases cleanup <;> cases releaseRaises <;> simp only []
    · exact ⟨trivial, findVmByDbId_filter_out _ _⟩
    · cases hact : activeFor s.allocs vmId <;>
        exact ⟨trivial, findVmByDbId_filter_out _ _⟩
    · exact ⟨trivial, findVmByDbId_filter_out _ _⟩
    · cases hact : activeFor s.allocs vmId <;>
        exact ⟨trivial, findVmByDbId_filter_out _ _⟩
  · intro e vm0 hvm0
    have hvmE : findVmByDbId
        (updateVm (updateVm s.vms vmDbId
          (fun v => { v with status := "deleting" })) vmDbId
          (fun v => { v with status := "error",
                             errorMessage :=
                               some ("Deletion failed: " ++ e) }))
        vmDbId =
        some { vm0 with status := "error",
                        errorMessage :=
                          some ("Deletion failed: " ++ e) } := by
      rw [findVmByDbId_updateVm (updateVm s.vms vmDbId
            (fun v => { v with status := "deleting" })) vmDbId
            (fun v => { v with status := "error",
                               errorMessage :=
                                 some ("Deletion failed: " ++ e) })
            (fun v => rfl),
          findVmByDbId_updateVm s.vms vmDbId
            (fun v => { v with status := "deleting" }) (fun v => rfl),
          hvm0]
      rfl
    unfold deleteVmTaskRun
    cases cleanup <;> cases releaseRaises <;> simp only []
    · cases hact : activeFor s.allocs vmId <;> exact ⟨trivial, hvmE⟩
    · exact ⟨trivial, hvmE⟩
    · cases hact : activeFor s.allocs vmId <;> exact ⟨trivial, hvmE⟩
    · exact ⟨trivial, hvmE⟩

/-- Closed instance for C9: cleanup fails and the release step raises,
yet the row-deletion succeeds and the VM row is gone; with the same
failing cleanup, a failing row-deletion re-raises and marks the row. -/
theorem delete_task_best_effort_witness :
    (deleteVmTaskRun
        { vms := [{ dbId := 1, vmId := "srv-d", name := "d",
                    status := "running", errorMessage := none,
                    ipAddress := some 10, host := none,
                    kernelPath := none, userId := 1 }],
          pools := [], allocs := [], events := [] } 1 "srv-d"
        (.err "cleanup broke") true .ok 5).1 = .ok () ∧
    findVmByDbId
      (deleteVmTaskRun
        { vms := [{ dbId := 1, vmId := "srv-d", name := "d",
                    status := "running", errorMessage := none,
                    ipAddress := some 10, host := none,
                    kernelPath := none, userId := 1 }],
          pools := [], allocs := [], events := [] } 1 "srv-d"
        (.err "cleanup broke") true .ok 5).2.vms 1 = none ∧
    (deleteVmTaskRun
        { vms := [{ dbId := 1, vmId := "srv-d", name := "d",
                    status := "running", errorMessage := none,
                    ipAddress := some 10, host := none,
                    kernelPath := none, userId := 1 }],
          pools := [], allocs := [], events := [] } 1 "srv-d"
        (.err "cleanup broke") true (.err "db down") 5).1 =
      .error "db down" ∧
    findVmByDbId
      (deleteVmTaskRun
        { vms := [{ dbId := 1, vmId := "srv-d", name := "d",
                    status := "running", errorMessage := none,
                    ipAddress := some 10, host := none,
                    kernelPath := none, userId := 1 }],
          pools := [], allocs := [], events := [] } 1 "srv-d"
        (.err "cleanup broke") true (.err "db down") 5).2.vms 1 =
      some { dbId := 1, vmId := "srv-d", name := "d",
             status := "error",
             errorMessage := some ("Deletion failed: " ++ "db down"),
             ipAddress := some 10, host := none, kernelPath := none,
             userId := 1 } := by
  have h := delete_task_best_effort
    { vms := [{ dbId := 1, vmId := "srv-d", name := "d",
                status := "running", errorMessage := none,
                ipAddress := some 10, host := none, kernelPath := none,
                userId := 1 }],
      pools := [], allocs := [], events := [] } 1 "srv-d"
    (.err "cleanup broke") true 5
  have herr := h.2 "db down"
    { dbId := 1, vmId := "srv-d", name := "d", status := "running",
      errorMessage := none, ipAddress := some 10, host := none,
      kernelPath := none, userId := 1 } rfl
  exact ⟨h.1.1, h.1.2, herr.1, herr.2⟩

/-- Inversion of a successful fresh `allocate_ip` call: the scan found
`ip` and the new state appends exactly one active row for the VM. -/
lemma allocate_ip_fresh_inv {s : PoolState} {vmId poolName : String}
    {now ip : Nat} {s1 : PoolState} {pool : IpPool}
    (hp : poolFind s.pools poolName = some pool)
    (hfresh : activeFor s.allocs vmId = none)
    (h : allocate_ip s vmId poolName now = (.ok ip, s1)) :
    findAvailableIp pool.startIp pool.endIp
      (activeIpsInPool s.allocs pool.id) = some ip ∧
    s1 = { s with allocs := s.allocs ++
      [{ poolId := pool.id, vmId := vmId, ipAddress := ip,
         isActive := true, allocatedAt := now,
         releasedAt := none }] } := by
  unfold allocate_ip at h
  rw [hfresh] at h
  simp only [] at h
  rw [hp] at h
  simp only [] at h
  cases hfa : findAvailableIp pool.startIp pool.endIp
      (activeIpsInPool s.allocs pool.id) with
  | none =>
    rw [hfa] at h
    simp at h
  | some ip0 =>
    rw [hfa] at h
    simp only [Prod.mk.injEq, Except.ok.injEq] at h
    obtain ⟨h1, h2⟩ := h
    subst h1
    exact ⟨rfl, h2.symm⟩

/-- The properties of the address found by the ascending scan: lowest
free address of the pool range. -/
lemma findAvailableIp_lowest {startIp endIp ip : Nat}
    {allocated : List Nat}
    (hfa : findAvailableIp startIp endIp allocated = some ip) :
    ip ∈ poolScan startIp endIp ∧ ip ∉ allocated ∧
    ∀ b ∈ poolScan startIp endIp, b < ip → b ∈ allocated := by
  have hfaf : (poolScan startIp endIp).find?
      (fun x => !(decide (x ∈ allocated))) = some ip := hfa
  have hmem : ip ∈ poolScan startIp endIp :=
    List.mem_of_find?_eq_some hfaf
  have hfree : ip ∉ allocated := by
    have := List.find?_some hfaf
    simpa using this
  refine ⟨hmem, hfree, ?_⟩
  intro b hb hlt
  have hpw : (poolScan startIp endIp).Pairwise (· < ·) :=
    List.pairwise_lt_range' startIp (endIp + 1 - startIp) 1 (by omega)
  have := find?_pairwise_min hpw hfaf b hb hlt
  simpa using this

/-- C7: lowest-free-wins. A successful fresh allocation returns an
address of the pool scan with no active allocation such that every
smaller address of the scan is actively allocated; that address is the
unique one with this property, so in particular when a just-released
address is the lowest free one, the next fresh allocation returns exactly
it. -/
theorem allocate_ip_lowest_free (s : PoolState) (vmId poolName : String)
    (now ip : Nat) (s1 : PoolState) (pool : IpPool)
    (hp : poolFind s.pools poolName = some pool)
    (hfresh : activeFor s.allocs vmId = none)
    (h : allocate_ip s vmId poolName now = (.ok ip, s1)) :
    (ip ∈ poolScan pool.startIp pool.endIp ∧
     ip ∉ activeIpsInPool s.allocs pool.id ∧
     ∀ b ∈ poolScan pool.startIp pool.endIp, b < ip →
       b ∈ activeIpsInPool s.allocs pool.id) ∧
    (∀ r, r ∈ poolScan pool.startIp pool.endIp →
      r ∉ activeIpsInPool s.allocs pool.id →
      (∀ b ∈ poolScan pool.startIp pool.endIp, b < r →
        b ∈ activeIpsInPool s.allocs pool.id) → ip = r) := by
  obtain ⟨hfa, -⟩ := allocate_ip_fresh_inv hp hfresh h
  obtain ⟨hmem, hfree, hmin⟩ := findAvailableIp_lowest hfa
  refine ⟨⟨hmem, hfree, hmin⟩, ?_⟩
  intro r hrmem hrfree hrmin
  by_contra hne
  rcases Nat.lt_or_ge ip r with hlt | hge
  · exact hfree (hrmin ip hmem hlt)
  · have hlt2 : r < ip := by omega
    exact hrfree (hmin r hrmem hlt2)

/-- The `default` pool of the concrete scenario of §8: CIDR
`172.16.0.0/24` (2886729728), gateway `172.16.0.1` (2886729729), stored
range `172.16.0.2`-`172.16.0.254` (2886729730-2886729982). -/
def scenarioPool : IpPool :=
  { id := 1, name := "default", cidr := "172.16.0.0/24",
    gateway := 2886729729, startIp := 2886729730, endIp := 2886729982,
    isActive := true }

/-- Scenario state after `vm-1` got `.2`, `vm-2` got `.3`, and `vm-1`
was released. -/
def scenarioReleased : PoolState :=
  { pools := [scenarioPool],
    allocs := [{ poolId := 1, vmId := "vm-1", ipAddress := 2886729730,
                 isActive := false, allocatedAt := 0,
                 releasedAt := some 3 },
               { poolId := 1, vmId := "vm-2", ipAddress := 2886729731,
                 isActive := true, allocatedAt := 1,
                 releasedAt := none }] }

/-- Closed instance for C7 (the §8 scenario): after `Release(vm-1)` freed
`172.16.0.2`, `Allocate(default, vm-3)` returns exactly 2886729730 =
`172.16.0.2`, and that address is free while every smaller scan address
is actively allocated. -/
theorem allocate_ip_lowest_free_witness :
    (allocate_ip scenarioReleased "vm-3" "default" 4).1 =
      .ok 2886729730 ∧
    2886729730 ∈ poolScan scenarioPool.startIp scenarioPool.endIp ∧
    2886729730 ∉ activeIpsInPool scenarioReleased.allocs 1 := by
  have h := allocate_ip_lowest_free scenarioReleased "vm-3" "default" 4
    2886729730
    { scenarioReleased with
      allocs := scenarioReleased.allocs ++
        [{ poolId := 1, vmId := "vm-3", ipAddress := 2886729730,
           isActive := true, allocatedAt := 4, releasedAt := none }] }
    scenarioPool rfl rfl rfl
  exact ⟨rfl, h.1.1, h.1.2.1⟩

/-- Pool whose gateway 10.0.0.2 (167772162) lies strictly inside the
host range of 10.0.0.0/29; `_calculate_available_ips` collapses the
gateway-free host list to its first and last element only, so the stored
range 10.0.0.1-10.0.0.6 still contains the gateway. -/
def interiorGatewayPool : IpPool :=
  { id := 1, name := "default", cidr := "10.0.0.0/29",
    gateway := 167772162, startIp := 167772161, endIp := 167772166,
    isActive := true }

/-- State over `interiorGatewayPool` in which 10.0.0.1 is taken, so the
lowest free scan address is exactly the gateway. -/
def interiorGatewayState : PoolState :=
  { pools := [interiorGatewayPool],
    allocs := [{ poolId := 1, vmId := "vm-a", ipAddress := 167772161,
                 isActive := true, allocatedAt := 0,
                 releasedAt := none }] }

/-- C8 counterexample: with CIDR 10.0.0.0/29 and gateway 10.0.0.2
(interior position), `_calculate_available_ips` yields the stored range
(10.0.0.1, 10.0.0.6), and once 10.0.0.1 is allocated, `allocate_ip`
returns 167772162 — the pool's own gateway — refuting the claim that
Allocate never returns the gateway for any position of the gateway
within the CIDR. -/
theorem allocate_ip_returns_interior_gateway :
    calculateAvailableIps 167772160 8 167772162 =
      .ok (167772161, 167772166) ∧
    (allocate_ip interiorGatewayState "vm-b" "default" 1).1 =
      .ok 167772162 ∧
    interiorGatewayPool.gateway = 167772162 :=
  ⟨rfl, rfl, rfl⟩

/-- C8 as amended: every address a fresh `allocate_ip` returns lies
within the stored `[start_ip, end_ip]` range, and when the gateway lies
outside that stored range — as it does whenever it is the first or last
host of the CIDR, the boundary case `_calculate_available_ips` actually
handles — the returned address is never the gateway; concretely, for
CIDR 172.16.0.0/24 with gateway 172.16.0.1 the stored range is
172.16.0.2-172.16.0.254, i.e. 253 assignable addresses. -/
theorem allocate_ip_range_bounds_and_boundary_gateway
    (s : PoolState) (vmId poolName : String) (now ip : Nat)
    (s1 : PoolState) (pool : IpPool)
    (hp : poolFind s.pools poolName = some pool)
    (hfresh : activeFor s.allocs vmId = none)
    (h : allocate_ip s vmId poolName now = (.ok ip, s1)) :
    (pool.startIp ≤ ip ∧ ip ≤ pool.endIp) ∧
    ((pool.gateway < pool.startIp ∨ pool.endIp < pool.gateway) →
      ip ≠ pool.gateway) ∧
    calculateAvailableIps 2886729728 256 2886729729 =
      .ok (2886729730, 2886729982) ∧
    2886729982 + 1 - 2886729730 = 253 := by
  obtain ⟨hfa, -⟩ := allocate_ip_fresh_inv hp hfresh h
  obtain ⟨hmem, -, -⟩ := findAvailableIp_lowest hfa
  have hb := List.mem_range'_1.1 hmem
  refine ⟨⟨by omega, by omega⟩, by omega, rfl, rfl⟩

/-- Closed instance for the amended C8: in the §8 scenario pool the
fresh allocation for `vm-3` stays within the stored bounds and differs
from the gateway (which sits below the stored range). -/
theorem allocate_ip_range_bounds_witness :
    (scenarioPool.startIp ≤ 2886729730 ∧
     2886729730 ≤ scenarioPool.endIp) ∧
    2886729730 ≠ scenarioPool.gateway := by
  have h := allocate_ip_range_bounds_and_boundary_gateway
    scenarioReleased "vm-3" "default" 4 2886729730
    { scenarioReleased with
      allocs := scenarioReleased.allocs ++
        [{ poolId := 1, vmId := "vm-3", ipAddress := 2886729730,
           isActive := true, allocatedAt := 4, releasedAt := none }] }
    scenarioPool rfl rfl rfl
  exact ⟨h.1, h.2.1 (Or.inl (by decide))⟩

/-- The free addresses of a pool: scan addresses with no active
allocation (the complement `allocate_ip` searches). -/
def freeIps (s : PoolState) (pool : IpPool) : List Nat :=
  (poolScan pool.startIp pool.endIp).filter
    (fun b => !(decide (b ∈ activeIpsInPool s.allocs pool.id)))

/-- Sequential composition of `allocate_ip` calls for a list of VMs, the
scenario of the exhaustion property (§8). -/
def allocateSeq (s : PoolState) (vmIds : List String)
    (poolName : String) (now : Nat) : Except AllocError PoolState :=
  match vmIds with
  | [] => .ok s
  | v :: rest =>
    match allocate_ip s v poolName now with
    | (.ok _, s1) => allocateSeq s1 rest poolName now
    | (.error e, _) => .error e

lemma findAvailableIp_eq_head_free (s : PoolState) (pool : IpPool) :
    findAvailableIp pool.startIp pool.endIp
      (activeIpsInPool s.allocs pool.id) = (freeIps s pool).head? :=
  find?_eq_head?_filter _ _

lemma filter_not_mem_append (scan A : List Nat) (ip : Nat) :
    scan.filter (fun b => !(decide (b ∈ A ++ [ip]))) =
      (scan.filter (fun b => !(decide (b ∈ A)))).filter
        (fun b => !(b == ip)) := by
  rw [List.filter_filter]
  exact List.filter_congr (fun b _ => by
    by_cases h1 : b ∈ A <;> by_cases h2 : b = ip <;> simp [h1, h2])

lemma activeIpsInPool_append_row (allocs : List IpAllocation)
    (row : IpAllocation) :
    activeIpsInPool (allocs ++ [row]) row.poolId =
      activeIpsInPool allocs row.poolId ++
        (if row.isActive then [row.ipAddress] else []) := by
  unfold activeIpsInPool
  rw [List.filter_append, List.map_append]
  cases hra : row.isActive
  · rw [List.filter_cons_of_neg (by simp [hra])]
    simp
  · rw [List.filter_cons_of_pos (by simp [hra])]
    simp

/-- One successful fresh allocation: consumes exactly one free address
of the pool and touches no other VM's active allocation. -/
lemma allocate_ip_fresh_step (s : PoolState) (v poolName : String)
    (now : Nat) (pool : IpPool)
    (hp : poolFind s.pools poolName = some pool)
    (hfresh : activeFor s.allocs v = none)
    (hfree : freeIps s pool ≠ []) :
    ∃ ip s1, allocate_ip s v poolName now = (.ok ip, s1) ∧
      s1.pools = s.pools ∧
      (freeIps s1 pool).length + 1 = (freeIps s pool).length ∧
      (∀ v2, v2 ≠ v → activeFor s1.allocs v2 = activeFor s.allocs v2) := by
  obtain ⟨ip, rest, hh⟩ : ∃ ip rest, freeIps s pool = ip :: rest := by
    cases hfp : freeIps s pool with
    | nil => exact absurd hfp hfree
    | cons a l => exact ⟨a, l, rfl⟩
  · have hfa : findAvailableIp pool.startIp pool.endIp
        (activeIpsInPool s.allocs pool.id) = some ip := by
      rw [findAvailableIp_eq_head_free, hh]
      rfl
    refine ⟨ip,
      { s with allocs := s.allocs ++
          [{ poolId := pool.id, vmId := v, ipAddress := ip,
             isActive := true, allocatedAt := now,
             releasedAt := none }] }, ?_, rfl, ?_, ?_⟩
    · unfold allocate_ip
      rw [hfresh]
      simp only []
      rw [hp]
      simp only []
      rw [hfa]
    · have hips : activeIpsInPool (s.allocs ++
          [{ poolId := pool.id, vmId := v, ipAddress := ip,
             isActive := true, allocatedAt := now,
             releasedAt := none }]) pool.id =
          activeIpsInPool s.allocs pool.id ++ [ip] := by
        have := activeIpsInPool_append_row s.allocs
          { poolId := pool.id, vmId := v, ipAddress := ip,
            isActive := true, allocatedAt := now, releasedAt := none }
        simpa using this
      have hfd : freeIps { s with allocs := s.allocs ++
          [{ poolId := pool.id, vmId := v, ipAddress := ip,
             isActive := true, allocatedAt := now,
             releasedAt := none }] } pool =
          (freeIps s pool).filter (fun b => !(b == ip)) := by
        unfold freeIps
        rw [hips]
        exact filter_not_mem_append _ _ _
      rw [hfd]
      have hnd : (freeIps s pool).Nodup :=
        (List.nodup_range' pool.startIp (pool.endIp + 1 - pool.startIp)
          1 (by omega)).filter _
      have hipmem : ip ∈ freeIps s pool := by
        rw [hh]
        exact List.mem_cons_self ip rest
      exact length_filter_bne hnd hipmem
    · intro v2 hv2
      rw [activeFor_append_single]
      have hne : (v == v2) = false := by
        simp only [beq_eq_false_iff_ne, ne_eq]
        exact fun hc => hv2 hc.symm
      simp [hne]

/-- Draining a pool: allocating for a list of distinct fresh VMs no
longer than the free-address count succeeds and consumes exactly one
free address per VM, leaving every uninvolved VM fresh. -/
lemma allocateSeq_drain (poolName : String) (now : Nat) (pool : IpPool) :
    ∀ (vmIds : List String) (s : PoolState),
      poolFind s.pools poolName = some pool →
      (∀ v ∈ vmIds, activeFor s.allocs v = none) →
      vmIds.Nodup →
      vmIds.length ≤ (freeIps s pool).length →
      ∃ s1, allocateSeq s vmIds poolName now = .ok s1 ∧
        s1.pools = s.pools ∧
        (freeIps s1 pool).length + vmIds.length =
          (freeIps s pool).length ∧
        (∀ v2, v2 ∉ vmIds → activeFor s.allocs v2 = none →
          activeFor s1.allocs v2 = none) := by
  intro vmIds
  induction vmIds with
  | nil =>
    intro s hp _ _ _
    exact ⟨s, rfl, rfl, by simp, fun v2 _ hv2 => hv2⟩
  | cons v rest ih =>
    intro s hp hfresh hnd hlen
    have hfree : freeIps s pool ≠ [] := by
      intro he
      rw [he] at hlen
      simp at hlen
    obtain ⟨ip, s1, heq, hpools, hlen1, hpres⟩ :=
      allocate_ip_fresh_step s v poolName now pool hp
        (hfresh v (List.mem_cons_self v rest)) hfree
    have hp1 : poolFind s1.pools poolName = some pool := by
      rw [hpools]
      exact hp
    have hfreefix : freeIps s1 pool = (poolScan pool.startIp
        pool.endIp).filter (fun b =>
          !(decide (b ∈ activeIpsInPool s1.allocs pool.id))) := rfl
    have hfresh1 : ∀ w ∈ rest, activeFor s1.allocs w = none := by
      intro w hw
      have hwv : w ≠ v := by
        rcases List.nodup_cons.1 hnd with ⟨hv, -⟩
        exact fun hc => hv (hc ▸ hw)
      rw [hpres w hwv]
      exact hfresh w (List.mem_cons_of_mem v hw)
    have hnd1 : rest.Nodup := (List.nodup_cons.1 hnd).2
    have hlen2 : rest.length ≤ (freeIps s1 pool).length := by
      have := List.length_cons v rest ▸ hlen
      omega
    obtain ⟨s2, hseq, hpools2, hlenf, hpres2⟩ :=
      ih s1 hp1 hfresh1 hnd1 hlen2
    refine ⟨s2, ?_, by rw [hpools2, hpools], by
      simp only [List.length_cons]
      omega, ?_⟩
    · unfold allocateSeq
      rw [heq]
      exact hseq
    · intro v2 hv2 hfv2
      have hv2v : v2 ≠ v := fun hc => hv2 (hc ▸ List.mem_cons_self v rest)
      have hv2rest : v2 ∉ rest := fun hc =>
        hv2 (List.mem_cons_of_mem v hc)
      exact hpres2 v2 hv2rest (by rw [hpres v2 hv2v]; exact hfv2)

/-- C6: exhaustion. For a pool whose free-address count is exactly `N =
vmIds.length`, allocating for the `N` distinct fresh VMs of `vmIds`
succeeds, and the `(N+1)`-th allocation for a further fresh VM `vNew`
raises `NoAvailableIPs` and creates no allocation row (the state is
returned unchanged). -/
theorem pool_exhaustion (s : PoolState) (vmIds : List String)
    (vNew poolName : String) (now : Nat) (pool : IpPool)
    (hp : poolFind s.pools poolName = some pool)
    (hnd : (vNew :: vmIds).Nodup)
    (hfresh : ∀ v ∈ vNew :: vmIds, activeFor s.allocs v = none)
    (hN : vmIds.length = (freeIps s pool).length) :
    ∃ s1, allocateSeq s vmIds poolName now = .ok s1 ∧
      allocate_ip s1 vNew poolName now =
        (.error .noAvailableIPs, s1) := by
  obtain ⟨s1, hseq, hpools, hlen, hpres⟩ :=
    allocateSeq_drain poolName now pool vmIds s hp
      (fun v hv => hfresh v (List.mem_cons_of_mem vNew hv))
      (List.nodup_cons.1 hnd).2 (le_of_eq hN)
  have hfree1 : freeIps s1 pool = [] := by
    have : (freeIps s1 pool).length = 0 := by omega
    exact List.eq_nil_of_length_eq_zero this
  have hfreshNew : activeFor s1.allocs vNew = none := by
    refine hpres vNew (List.nodup_cons.1 hnd).1 ?_
    exact hfresh vNew (List.mem_cons_self vNew vmIds)
  have hp1 : poolFind s1.pools poolName = some pool := by
    rw [hpools]
    exact hp
  have hfa : findAvailableIp pool.startIp pool.endIp
      (activeIpsInPool s1.allocs pool.id) = none := by
    rw [findAvailableIp_eq_head_free, hfree1]
    rfl
  refine ⟨s1, hseq, ?_⟩
  unfold allocate_ip
  rw [hfreshNew]
  simp only []
  rw [hp1]
  simp only []
  rw [hfa]

/-- Closed instance for C6: a pool holding exactly the three addresses
10-12; after allocating for the three distinct VMs `a`, `b`, `c`, the
fourth allocation for the fresh VM `d` fails with `NoAvailableIPs` and
leaves the state unchanged. -/
theorem pool_exhaustion_witness :
    ∃ s1, allocateSeq
        { pools := [{ id := 1, name := "default", cidr := "10.0.0.8/29",
                      gateway := 9, startIp := 10, endIp := 12,
                      isActive := true }],
          allocs := [] } ["a", "b", "c"] "default" 0 = .ok s1 ∧
      allocate_ip s1 "d" "default" 0 =
        (.error .noAvailableIPs, s1) := by
  exact pool_exhaustion
    { pools := [{ id := 1, name := "default", cidr := "10.0.0.8/29",
                  gateway := 9, startIp := 10, endIp := 12,
                  isActive := true }],
      allocs := [] } ["a", "b", "c"] "d" "default" 0
    { id := 1, name := "default", cidr := "10.0.0.8/29", gateway := 9,
      startIp := 10, endIp := 12, isActive := true }
    rfl (by decide) (by decide) (by decide)

end Mikrom
